import Mathlib

/-!
Verification of the Meshroom node-descriptor core (`meshroom/core/desc.py`)
against its natural-language specification.

The Python source is shallowly embedded: Python `int` becomes `Int`,
Python exceptions become an explicit `Except PyExc` result, and the small
pieces of the Python standard library the source calls (`ast.literal_eval`,
`os.path.normpath`) are abstracted as parameters of a `PyEnv` record, since
their code is not part of this repository.
-/

/-- Exceptions raised by the embedded code. `parseFailure` stands for the
parse error `ast.literal_eval` raises on malformed input (distinct from
`ValueError`). -/
inductive PyExc where
  | valueError
  | typeError
  | attributeError
  | keyError
  | indexError
  | parseFailure
  | notImplementedError
  | noSuchProcess
deriving DecidableEq, Repr

/-! ## Sizing model: `Range` (desc.py 369-401) -/

/-- Embedding of `class Range` (desc.py 369): iteration index, block size
and full size, as Python integers. -/
structure Range where
  iteration : Int
  blockSize : Int
  fullSize : Int
deriving DecidableEq, Repr

/-- `Range.start` (desc.py 375-377): `iteration * blockSize`. -/
def Range.start (r : Range) : Int := r.iteration * r.blockSize

/-- `Range.effectiveBlockSize` (desc.py 379-382):
`remaining = (fullSize - start) + 1`; the block size if `remaining`
is at least the block size, `remaining` otherwise. -/
def Range.effectiveBlockSize (r : Range) : Int :=
  let remaining := (r.fullSize - r.start) + 1
  if r.blockSize ≤ remaining then r.blockSize else remaining

/-- `Range.end` (desc.py 384-386); named `rangeEnd` because `end` is a
reserved word in Lean. -/
def Range.rangeEnd (r : Range) : Int := r.start + r.effectiveBlockSize

/-- `Range.last` (desc.py 388-390). -/
def Range.last (r : Range) : Int := r.rangeEnd - 1

/-- The set of workload indices covered by a range: the half-open
interval `[start, end)`. -/
def Range.covers (r : Range) (x : Int) : Prop :=
  r.start ≤ x ∧ x < r.rangeEnd

instance (r : Range) (x : Int) : Decidable (r.covers x) := by
  unfold Range.covers
  infer_instance

/-! ## Sizing model: `Parallelization` (desc.py 404-432) -/

/-- Integer ceiling division: `ceilOfDiv a b = ⌈a / b⌉` for `b > 0`.
The source computes `int(math.ceil(float(size) / float(blockSize)))`;
on integers within float-exact magnitude this is the exact ceiling. -/
def ceilOfDiv (a b : Int) : Int := -((-a) / b)

/-- Embedding of `class Parallelization` (desc.py 404-407). -/
structure Parallelization where
  staticNbBlocks : Int := 0
  blockSize : Int := 0
deriving DecidableEq, Repr

/-- `Parallelization.getSizes` (desc.py 409-421). The only field of the
node the source reads is `node.size`, passed here directly. Python's
truthiness test `if self.blockSize:` is `≠ 0` on an int. Returns
`(blockSize, fullSize, nbBlocks)`, or `none` (Python `None`) when the
node is not parallelized. -/
def Parallelization.getSizes (p : Parallelization) (size : Int) :
    Option (Int × Int × Int) :=
  if p.blockSize ≠ 0 then
    some (p.blockSize, size, ceilOfDiv size p.blockSize)
  else if p.staticNbBlocks ≠ 0 then
    some (1, p.staticNbBlocks, p.staticNbBlocks)
  else
    none

/-- `Parallelization.getRange` (desc.py 423-425). Unpacking the `None`
returned by `getSizes` raises a `TypeError` in Python. -/
def Parallelization.getRange (p : Parallelization) (size iteration : Int) :
    Except PyExc Range :=
  match p.getSizes size with
  | none => .error .typeError
  | some (b, f, _) => .ok ⟨iteration, b, f⟩

/-- `Parallelization.getRanges` (desc.py 427-432): one `Range` per block
index `0 .. nbBlocks-1`, all sharing `(blockSize, fullSize)`. Python's
`range(n)` is empty for non-positive `n`, hence `n.toNat`. -/
def Parallelization.getRanges (p : Parallelization) (size : Int) :
    Except PyExc (List Range) :=
  match p.getSizes size with
  | none => .error .typeError
  | some (b, f, n) => .ok ((List.range n.toNat).map fun (i : Nat) => ⟨(i : Int), b, f⟩)

/-- C10: a `Parallelization` with `blockSize = 0` and `staticNbBlocks = 0`
(a node that is not parallelized) returns `None` from `getSizes`, and both
`getRanges` and `getRange` fail (with the `TypeError` of unpacking `None`)
rather than returning an empty sequence of ranges. -/
theorem C10_not_parallelized (s i : Int) :
    Parallelization.getSizes ⟨0, 0⟩ s = none ∧
      Parallelization.getRanges ⟨0, 0⟩ s = .error .typeError ∧
      Parallelization.getRange ⟨0, 0⟩ s i = .error .typeError :=
  ⟨rfl, rfl, rfl⟩

/-! ## Arithmetic facts about `getRanges` -/

theorem ceilOfDiv_bounds (s b : Int) (hb : 0 < b) :
    s ≤ ceilOfDiv s b * b ∧ (ceilOfDiv s b - 1) * b < s := by
  have h := Int.ediv_add_emod (-s) b
  have hr1 := Int.emod_nonneg (-s) (ne_of_gt hb)
  have hr2 := Int.emod_lt_of_pos (-s) hb
  unfold ceilOfDiv
  constructor
  · nlinarith [h, hr1]
  · nlinarith [h, hr2]

theorem ceilOfDiv_pos (s b : Int) (hs : 0 < s) (hb : 0 < b) :
    0 < ceilOfDiv s b := by
  rcases ceilOfDiv_bounds s b hb with ⟨h1, _⟩
  by_contra hneg
  push_neg at hneg
  nlinarith

theorem getRanges_blockSize (s b : Int) (hb : b ≠ 0) :
    Parallelization.getRanges ⟨0, b⟩ s =
      .ok ((List.range (ceilOfDiv s b).toNat).map fun (i : Nat) => ⟨(i : Int), b, s⟩) := by
  simp only [Parallelization.getRanges, Parallelization.getSizes]
  rw [if_pos hb]

/-- For every range except possibly the last the effective block size is
exactly `b`. -/
theorem effectiveBlockSize_of_not_last (s b : Int) (i : Int)
    (hlt : (i + 1) * b < s) :
    Range.effectiveBlockSize ⟨i, b, s⟩ = b := by
  unfold Range.effectiveBlockSize Range.start
  simp only []
  rw [if_pos]
  nlinarith

/-- C3: for `blockSize = b > 0` and logical size `s > 0`, `getRanges`
yields a list `rs` of exactly `⌈s/b⌉` ranges (characterized by
`(|rs|-1)*b < s ≤ |rs|*b`), the range at position `i` is
`⟨i, b, s⟩` — so its start is `i*b` and it carries the shared
`(blockSize, fullSize)` pair — and every range except possibly the last
has `effectiveBlockSize = b`. -/
theorem C3_getRanges_shape (s b : Int) (hs : 0 < s) (hb : 0 < b) :
    ∃ rs : List Range, Parallelization.getRanges ⟨0, b⟩ s = .ok rs ∧
      0 < rs.length ∧
      ((rs.length : Int) - 1) * b < s ∧ s ≤ (rs.length : Int) * b ∧
      (∀ (i : Nat) (h : i < rs.length), rs.get ⟨i, h⟩ = ⟨(i : Int), b, s⟩) ∧
      (∀ (i : Nat) (h : i < rs.length), (rs.get ⟨i, h⟩).start = (i : Int) * b ∧
        (rs.get ⟨i, h⟩).blockSize = b ∧ (rs.get ⟨i, h⟩).fullSize = s) ∧
      (∀ (i : Nat) (h : i < rs.length), i + 1 < rs.length →
        (rs.get ⟨i, h⟩).effectiveBlockSize = b) := by
  have hbne : b ≠ 0 := ne_of_gt hb
  obtain ⟨h1, h2⟩ := ceilOfDiv_bounds s b hb
  have hpos := ceilOfDiv_pos s b hs hb
  have hnn : (((ceilOfDiv s b).toNat : Int)) = ceilOfDiv s b :=
    Int.toNat_of_nonneg (le_of_lt hpos)
  refine ⟨(List.range (ceilOfDiv s b).toNat).map fun (i : Nat) => ⟨(i : Int), b, s⟩,
    getRanges_blockSize s b hbne, ?_, ?_, ?_, ?_, ?_, ?_⟩
  · simp only [List.length_map, List.length_range]
    omega
  · simp only [List.length_map, List.length_range, hnn]
    exact h2
  · simp only [List.length_map, List.length_range, hnn]
    exact h1
  · intro i h
    simp only [List.get_eq_getElem, List.getElem_map, List.getElem_range]
  · intro i h
    simp [Range.start]
  · intro i h hlast
    simp only [List.length_map, List.length_range] at h hlast
    simp only [List.get_eq_getElem, List.getElem_map, List.getElem_range]
    apply effectiveBlockSize_of_not_last s b
    have hi1 : ((i : Int) + 1) ≤ ceilOfDiv s b - 1 := by omega
    calc ((i : Int) + 1) * b ≤ (ceilOfDiv s b - 1) * b :=
          mul_le_mul_of_nonneg_right hi1 (le_of_lt hb)
      _ < s := h2

/-- Witness for C3 at `s = 3`, `b = 2`. -/
theorem C3_witness :
    ∃ rs : List Range, Parallelization.getRanges ⟨0, 2⟩ 3 = .ok rs ∧
      0 < rs.length ∧
      ((rs.length : Int) - 1) * 2 < 3 ∧ (3 : Int) ≤ (rs.length : Int) * 2 ∧
      (∀ (i : Nat) (h : i < rs.length), rs.get ⟨i, h⟩ = ⟨(i : Int), 2, 3⟩) ∧
      (∀ (i : Nat) (h : i < rs.length), (rs.get ⟨i, h⟩).start = (i : Int) * 2 ∧
        (rs.get ⟨i, h⟩).blockSize = 2 ∧ (rs.get ⟨i, h⟩).fullSize = 3) ∧
      (∀ (i : Nat) (h : i < rs.length), i + 1 < rs.length →
        (rs.get ⟨i, h⟩).effectiveBlockSize = 2) :=
  C3_getRanges_shape 3 2 (by decide) (by decide)

/-! ## C1: disjointness and coverage of `getRanges` -/

theorem covers_mk_iff (k b s x : Int) :
    Range.covers ⟨k, b, s⟩ x ↔
      k * b ≤ x ∧ x < k * b + (if b ≤ s - k * b + 1 then b else s - k * b + 1) :=
  Iff.rfl

/-- Any index covered by block `k` of a `(blockSize, fullSize) = (b, s)`
tiling with `0 ≤ k ≤ n-1` and `(n-1)*b < s` lies in `[0, s]`, and can be
`s` itself only when `b` does not divide `s`. -/
theorem covered_forward (s b n k x : Int) (hb : 0 < b)
    (h2 : (n - 1) * b < s)
    (hk0 : 0 ≤ k) (hkn : k ≤ n - 1)
    (hcov : Range.covers ⟨k, b, s⟩ x) :
    0 ≤ x ∧ (x < s ∨ (x = s ∧ ¬ b ∣ s)) := by
  rw [covers_mk_iff] at hcov
  obtain ⟨hlo, hhi⟩ := hcov
  have hkb : 0 ≤ k * b := mul_nonneg hk0 (le_of_lt hb)
  refine ⟨le_trans hkb hlo, ?_⟩
  by_cases hc : b ≤ s - k * b + 1
  · rw [if_pos hc] at hhi
    have hxs : x ≤ s := by linarith
    rcases lt_or_eq_of_le hxs with h | h
    · exact Or.inl h
    · refine Or.inr ⟨h, ?_⟩
      rw [h] at hlo hhi
      rintro ⟨q, hq⟩
      have ht : s - k * b = b - 1 := by linarith
      have hstep : b * q - k * b - b = -1 := by linarith
      have hmul : b * (q - k - 1) = -1 := by linear_combination hstep
      have hdvd : b ∣ (1 : Int) := ⟨-(q - k - 1), by linear_combination hmul⟩
      have hble : b ≤ 1 := Int.le_of_dvd (by norm_num) hdvd
      have hb1 : b = 1 := by omega
      subst hb1
      simp only [mul_one] at ht hkn h2
      omega
  · rw [if_neg hc] at hhi
    push_neg at hc
    have hxs : x ≤ s := by linarith
    rcases lt_or_eq_of_le hxs with h | h
    · exact Or.inl h
    · refine Or.inr ⟨h, ?_⟩
      rw [h] at hlo hhi
      rintro ⟨q, hq⟩
      have hexp : b * (q - k) = s - k * b := by linear_combination -hq
      have hd0 : 0 ≤ b * (q - k) := by linarith
      have hd1 : b * (q - k) < b := by linarith
      have hqk : q - k = 0 := by
        rcases lt_trichotomy (q - k) 0 with h' | h' | h'
        · nlinarith
        · exact h'
        · nlinarith
      have hz : b * (q - k) = 0 := by rw [hqk, mul_zero]
      have hsk : s = k * b := by linarith
      have hlt : (n - 1) * b < k * b := by linarith
      have : n - 1 < k := lt_of_mul_lt_mul_right hlt (le_of_lt hb)
      omega

/-- Every index in `[0, s)` is covered by block `x / b`. -/
theorem covered_exists_lt (s b n x : Int) (hb : 0 < b)
    (h1 : s ≤ n * b)
    (hx0 : 0 ≤ x) (hxs : x < s) :
    ∃ k : Int, 0 ≤ k ∧ k < n ∧ Range.covers ⟨k, b, s⟩ x := by
  refine ⟨x / b, Int.ediv_nonneg hx0 (le_of_lt hb), ?_, ?_⟩
  · have hmod := Int.ediv_add_emod x b
    have hm0 := Int.emod_nonneg x (ne_of_gt hb)
    have hlow : x / b * b ≤ x := by linarith [mul_comm (x / b) b]
    have : x / b * b < n * b := by linarith
    exact lt_of_mul_lt_mul_right this (le_of_lt hb)
  · rw [covers_mk_iff]
    have hmod := Int.ediv_add_emod x b
    have hm0 := Int.emod_nonneg x (ne_of_gt hb)
    have hm1 := Int.emod_lt_of_pos x hb
    have hlow : x / b * b ≤ x := by linarith [mul_comm (x / b) b]
    refine ⟨hlow, ?_⟩
    by_cases hc : b ≤ s - x / b * b + 1
    · rw [if_pos hc]
      linarith [mul_comm (x / b) b]
    · rw [if_neg hc]
      linarith

/-- When `b` does not divide `s`, the last block also covers index `s`. -/
theorem covered_exists_eq (s b n : Int)
    (h1 : s ≤ n * b) (h2 : (n - 1) * b < s) (hnd : ¬ b ∣ s) :
    Range.covers ⟨n - 1, b, s⟩ s := by
  rw [covers_mk_iff]
  refine ⟨le_of_lt h2, ?_⟩
  by_cases hc : b ≤ s - (n - 1) * b + 1
  · rw [if_pos hc]
    have hne : s ≠ n * b := by
      intro h
      exact hnd ⟨n, by linarith [mul_comm n b]⟩
    have hlt : s < n * b := lt_of_le_of_ne h1 hne
    have hexp : (n - 1) * b = n * b - b := by ring
    linarith
  · rw [if_neg hc]
    linarith

/-- Two distinct blocks of the same `(b, s)` tiling never cover a common
index. -/
theorem covered_disjoint (s b i j x : Int) (hb : 0 < b) (hij : i < j)
    (hci : Range.covers ⟨i, b, s⟩ x) (hcj : Range.covers ⟨j, b, s⟩ x) : False := by
  rw [covers_mk_iff] at hci hcj
  have heff : (if b ≤ s - i * b + 1 then b else s - i * b + 1) ≤ b := by
    by_cases hc : b ≤ s - i * b + 1
    · rw [if_pos hc]
    · rw [if_neg hc]
      linarith
  have hij1 : (i + 1) * b ≤ j * b :=
    mul_le_mul_of_nonneg_right (by omega) (le_of_lt hb)
  nlinarith [hci.1, hci.2, hcj.1, hcj.2]

/-- C1 counterexample: with logical size `s = 3` and `blockSize b = 2`
the second range returned by `getRanges` covers index `3 = s`, although
the claim states that no index at or above `s` is covered. -/
theorem C1_counterexample :
    Parallelization.getRanges ⟨0, 2⟩ 3 =
        .ok [⟨0, 2, 3⟩, ⟨1, 2, 3⟩] ∧
      (Range.mk 1 2 3).covers 3 := by
  constructor
  · rfl
  · decide

/-- C1 (amended): for logical size `s > 0` and `blockSize b > 0`, the
ranges of one node instance are pairwise disjoint and cover every index
of `[0, s)`; the union of covered indices is exactly `[0, s)` when `b`
divides `s`, and otherwise additionally contains the single index `s`
(the last block overshoots by one, per the `(fullSize - start) + 1`
formula). -/
theorem C1_ranges_disjoint_cover (s b : Int) (hs : 0 < s) (hb : 0 < b) :
    ∃ rs : List Range, Parallelization.getRanges ⟨0, b⟩ s = .ok rs ∧
      List.Pairwise (fun r₁ r₂ => ∀ x : Int, ¬(r₁.covers x ∧ r₂.covers x)) rs ∧
      (∀ x : Int, (∃ r ∈ rs, r.covers x) ↔
        (0 ≤ x ∧ (x < s ∨ (x = s ∧ ¬ b ∣ s)))) := by
  have hbne : b ≠ 0 := ne_of_gt hb
  obtain ⟨h1, h2⟩ := ceilOfDiv_bounds s b hb
  have hpos := ceilOfDiv_pos s b hs hb
  have hnn : (((ceilOfDiv s b).toNat : Int)) = ceilOfDiv s b :=
    Int.toNat_of_nonneg (le_of_lt hpos)
  refine ⟨(List.range (ceilOfDiv s b).toNat).map fun (i : Nat) => ⟨(i : Int), b, s⟩,
    getRanges_blockSize s b hbne, ?_, ?_⟩
  · rw [List.pairwise_map]
    refine (List.pairwise_lt_range _).imp ?_
    intro i j hij x ⟨hcx, hcy⟩
    exact covered_disjoint s b i j x hb (by exact_mod_cast hij) hcx hcy
  · intro x
    constructor
    · rintro ⟨r, hr, hcov⟩
      rw [List.mem_map] at hr
      obtain ⟨i, hi, rfl⟩ := hr
      rw [List.mem_range] at hi
      refine covered_forward s b (ceilOfDiv s b) i x hb h2 (Int.ofNat_nonneg i) ?_ hcov
      omega
    · rintro ⟨hx0, hx | ⟨hxe, hnd⟩⟩
      · obtain ⟨k, hk0, hkn, hcov⟩ := covered_exists_lt s b (ceilOfDiv s b) x hb h1 hx0 hx
        refine ⟨⟨k, b, s⟩, ?_, hcov⟩
        rw [List.mem_map]
        exact ⟨k.toNat, List.mem_range.mpr (by omega), by rw [Int.toNat_of_nonneg hk0]⟩
      · rw [hxe]
        refine ⟨⟨ceilOfDiv s b - 1, b, s⟩, ?_, covered_exists_eq s b _ h1 h2 hnd⟩
        rw [List.mem_map]
        exact ⟨(ceilOfDiv s b - 1).toNat, List.mem_range.mpr (by omega),
          by rw [Int.toNat_of_nonneg (by omega)]⟩

/-- Witness for C1 (amended) at `s = 3`, `b = 2`. -/
theorem C1_witness :
    ∃ rs : List Range, Parallelization.getRanges ⟨0, 2⟩ 3 = .ok rs ∧
      List.Pairwise (fun r₁ r₂ => ∀ x : Int, ¬(r₁.covers x ∧ r₂.covers x)) rs ∧
      (∀ x : Int, (∃ r ∈ rs, r.covers x) ↔
        (0 ≤ x ∧ (x < 3 ∨ (x = 3 ∧ ¬ (2 : Int) ∣ 3)))) :=
  C1_ranges_disjoint_cover 3 2 (by decide) (by decide)

/-! ## Attribute schema: Python values (desc.py 13-360)

Python runtime values as far as the attribute code distinguishes them.
Tuples are merged with lists (the source always accepts `(list, tuple)`
together) and `float` values are not modelled (floating point).
Function-valued `File` defaults (the `callable` branch of
`File.checkValueTypes`) are not modelled either. -/

inductive PyValue where
  | vnone
  | vbool (b : Bool)
  | vint (n : Int)
  | vstr (s : String)
  | vlist (xs : List PyValue)
  | vdict (kvs : List (String × PyValue))

mutual

/-- Structural equality on the embedded values (used below for Python
`==` through `pyEq`, which first handles numeric cross-type equality). -/
def pyValueBeq : PyValue → PyValue → Bool
  | .vnone, .vnone => true
  | .vbool a, .vbool b => a == b
  | .vint a, .vint b => a == b
  | .vstr a, .vstr b => a == b
  | .vlist a, .vlist b => pyValueBeqList a b
  | .vdict a, .vdict b => pyValueBeqDict a b
  | _, _ => false

def pyValueBeqList : List PyValue → List PyValue → Bool
  | [], [] => true
  | a :: as, b :: bs => pyValueBeq a b && pyValueBeqList as bs
  | _, _ => false

def pyValueBeqDict : List (String × PyValue) → List (String × PyValue) → Bool
  | [], [] => true
  | (k1, v1) :: as, (k2, v2) :: bs =>
    k1 == k2 && pyValueBeq v1 v2 && pyValueBeqDict as bs
  | _, _ => false

end

instance : BEq PyValue := ⟨pyValueBeq⟩

/-! Character-level models of the Python string operations the source
uses (`str.lower`, `str.strip` inside `int(...)`, `str.split`,
`str.replace`). Python strings are not Lean `String`s; these definitions
model the Python behavior on the character sequence. -/

/-- Python `str.lower()` (ASCII case folding). -/
def pyLower (s : String) : String :=
  String.mk (s.data.map Char.toLower)

/-- Strip leading and trailing whitespace, as Python `int(str)` does
before parsing. -/
def charsTrim (cs : List Char) : List Char :=
  ((cs.dropWhile Char.isWhitespace).reverse.dropWhile Char.isWhitespace).reverse

def parseDigitsAux : List Char → Nat → Option Nat
  | [], acc => some acc
  | c :: cs, acc =>
    if c.isDigit then parseDigitsAux cs (acc * 10 + (c.toNat - 48)) else none

/-- Python `int(str)`: optional sign and decimal digits after stripping
whitespace (digit-grouping underscores are not modelled). -/
def pyParseInt (s : String) : Option Int :=
  match charsTrim s.data with
  | [] => none
  | c :: cs =>
    if c = '-' then
      match cs with
      | [] => none
      | _ => (parseDigitsAux cs 0).map fun n => -(n : Int)
    else if c = '+' then
      match cs with
      | [] => none
      | _ => (parseDigitsAux cs 0).map fun n => (n : Int)
    else
      (parseDigitsAux (c :: cs) 0).map fun n => (n : Int)

def splitOnCharAux (sep : Char) : List Char → List (List Char)
  | [] => [[]]
  | c :: rest =>
    let r := splitOnCharAux sep rest
    if c = sep then
      [] :: r
    else
      match r with
      | [] => [[c]]
      | g :: gs => (c :: g) :: gs

/-- Python `str.split(sep)` for a one-character separator: `""` splits
to `[""]`, separators at the ends produce empty fields. -/
def pySplit (s : String) (sep : Char) : List String :=
  (splitOnCharAux sep s.data).map String.mk

/-- Python `str.replace(old, new)` for one-character arguments. -/
def replaceChar (old new : Char) (s : String) : String :=
  String.mk (s.data.map fun c => if c = old then new else c)

/-- Python truthiness `bool(v)` for the embedded values; total, never
raises. -/
def pyTruthy : PyValue → Bool
  | .vnone => false
  | .vbool b => b
  | .vint n => n != 0
  | .vstr s => s != ""
  | .vlist xs => !xs.isEmpty
  | .vdict kvs => !kvs.isEmpty

/-- Python `repr` restricted to the embedded values (string escaping is
approximated: quotes are not escaped). Only used through `pyStr` for the
`str(...)` cast of `ChoiceParam.conformValue`. -/
def pyRepr : PyValue → String
  | .vnone => "None"
  | .vbool true => "True"
  | .vbool false => "False"
  | .vint n => toString n
  | .vstr s => "\x27" ++ s ++ "\x27"
  | .vlist xs =>
    "[" ++ String.intercalate ", " (xs.attach.map fun p => pyRepr p.1) ++ "]"
  | .vdict kvs =>
    "\x7b" ++
      String.intercalate ", "
        (kvs.attach.map fun p => "\x27" ++ p.1.1 ++ "\x27: " ++ pyRepr p.1.2) ++
      "\x7d"
decreasing_by
  · have := List.sizeOf_lt_of_mem p.2
    simp only [PyValue.vlist.sizeOf_spec]
    omega
  · rcases p with ⟨⟨k, v⟩, hmem⟩
    have := List.sizeOf_lt_of_mem hmem
    simp only [Prod.mk.sizeOf_spec] at this
    simp only [PyValue.vdict.sizeOf_spec]
    omega

/-- Python `str(v)`. -/
def pyStr : PyValue → String
  | .vstr s => s
  | v => pyRepr v

/-- Python `int(v)`: bools and ints convert, strings are parsed as an
integer literal (whitespace stripped; the underscore-digit-grouping of
Python literals is not modelled), everything else is a `TypeError`. -/
def pyInt : PyValue → Except PyExc Int
  | .vbool b => .ok (if b then 1 else 0)
  | .vint n => .ok n
  | .vstr s =>
    match pyParseInt s with
    | some n => .ok n
    | none => .error .valueError
  | _ => .error .typeError

/-- The runtime type of a value, as `type(values[0])` observes it. -/
inductive PyType where
  | tnone
  | tbool
  | tint
  | tstr
  | tlist
  | tdict
deriving DecidableEq, Repr

def typeOf : PyValue → PyType
  | .vnone => .tnone
  | .vbool _ => .tbool
  | .vint _ => .tint
  | .vstr _ => .tstr
  | .vlist _ => .tlist
  | .vdict _ => .tdict

/-- Calling the type of `values[0]` on a value, as in
`self._valueType(val)` (desc.py 307). `dict(pairs)` construction from a
list of pairs is not modelled (only an already-dict value converts). -/
def pyCast (t : PyType) (v : PyValue) : Except PyExc PyValue :=
  match t with
  | .tbool => .ok (.vbool (pyTruthy v))
  | .tint => (pyInt v).map .vint
  | .tstr => .ok (.vstr (pyStr v))
  | .tlist =>
    match v with
    | .vlist xs => .ok (.vlist xs)
    | .vstr s => .ok (.vlist (s.toList.map fun c => .vstr (String.singleton c)))
    | .vdict kvs => .ok (.vlist (kvs.map fun kv => .vstr kv.1))
    | _ => .error .typeError
  | .tdict =>
    match v with
    | .vdict kvs => .ok (.vdict kvs)
    | _ => .error .typeError
  | .tnone => .error .typeError

/-- `some n` when the value is a Python number (bool counts as its int
value), used for Python's cross-type numeric equality `True == 1`. -/
def pyNum : PyValue → Option Int
  | .vbool b => some (if b then 1 else 0)
  | .vint n => some n
  | _ => none

/-- Python `==` on the embedded values: numeric values compare by value
across bool/int, everything else structurally. (Numeric cross-type
equality nested inside containers is approximated structurally.) -/
def pyEq (a b : PyValue) : Bool :=
  match pyNum a, pyNum b with
  | some x, some y => x == y
  | _, _ => a == b

/-- Python iteration `for x in v`: lists yield elements, strings yield
one-character strings, dicts yield their keys; numbers and `None` are
not iterable. -/
def pyIter : PyValue → Option (List PyValue)
  | .vlist xs => some xs
  | .vstr s => some (s.toList.map fun c => .vstr (String.singleton c))
  | .vdict kvs => some (kvs.map fun kv => .vstr kv.1)
  | _ => none

/-- Python `v[0]` as used by `ListAttribute.matchDescription`
(desc.py 109). -/
def pySubscriptZero : PyValue → Except PyExc PyValue
  | .vlist xs =>
    match xs.head? with
    | some x => .ok x
    | none => .error .indexError
  | .vstr s =>
    match s.toList.head? with
    | some c => .ok (.vstr (String.singleton c))
    | none => .error .indexError
  | _ => .error .typeError

/-- Python `v.items()`: only dicts have `.items`; on any other value the
attribute access raises `AttributeError`. -/
def pyItems : PyValue → Except PyExc (List (String × PyValue))
  | .vdict kvs => .ok kvs
  | _ => .error .attributeError

/-- `distutils.util.strtobool`: recognizes y/yes/t/true/on/1 and
n/no/f/false/off/0 case-insensitively, raising `ValueError` otherwise. -/
def strtobool (s : String) : Except PyExc Nat :=
  let v := pyLower s
  if v = "y" ∨ v = "yes" ∨ v = "t" ∨ v = "true" ∨ v = "on" ∨ v = "1" then
    .ok 1
  else if v = "n" ∨ v = "no" ∨ v = "f" ∨ v = "false" ∨ v = "off" ∨ v = "0" then
    .ok 0
  else
    .error .valueError

/-- External library functions used by the source but not part of this
repository: `ast.literal_eval` (may fail with either a parse error or a
`ValueError`) and `os.path.normpath`. Theorems quantify over any such
environment. -/
structure PyEnv where
  literalEval : String → Except PyExc PyValue
  normpath : String → String

/-- A fixed environment for concrete evaluations: `literalEval` always
fails to parse and `normpath` is the identity. (The inputs used by the
witnesses and counterexamples below never reach either function.) -/
def envDefault : PyEnv :=
  { literalEval := fun _ => .error .parseFailure, normpath := id }

/-! ## Attribute schema: descriptors (desc.py 13-360)

One constructor per concrete descriptor class. `FloatParam` is omitted
(floating-point defaults). Only the fields the verified operations read
are kept: the name, the default value, and the kind-specific data. -/

inductive AttrDesc where
  | boolParam (name : String) (value : PyValue)
  | intParam (name : String) (value : PyValue) (range : Option (List PyValue))
  | stringParam (name : String) (value : PyValue)
  | colorParam (name : String) (value : PyValue)
  | fileAttr (name : String) (value : PyValue)
  | choiceParam (name : String) (value : PyValue) (values : List PyValue)
      (exclusive : Bool)
  | listAttr (name : String) (elementDesc : AttrDesc)
  | groupAttr (name : String) (groupDesc : List AttrDesc)

def AttrDesc.name : AttrDesc → String
  | .boolParam n _ => n
  | .intParam n _ _ => n
  | .stringParam n _ => n
  | .colorParam n _ => n
  | .fileAttr n _ => n
  | .choiceParam n _ _ _ => n
  | .listAttr n _ => n
  | .groupAttr n _ => n

/-- `ChoiceParam.conformValue` (desc.py 305-310): cast to the type of the
first declared value, then require membership in the allowed set. -/
def conformValue (values : List PyValue) (val : PyValue) : Except PyExc PyValue :=
  match pyCast (typeOf (values.headD .vnone)) val with
  | .error e => .error e
  | .ok v => if values.any (fun w => pyEq w v) then .ok v else .error .valueError

/-- `validateValue` of each descriptor kind (desc.py 87-98, 125-149,
217-220, 236-243, 258-263, 312-321, 339-342, 356-360). The `JSValue`
branches are dead outside a Qt runtime and are not modelled. -/
def validateValue (env : PyEnv) : AttrDesc → PyValue → Except PyExc PyValue
  | .boolParam _ _, v =>
    match v with
    | .vstr s =>
      -- bare `except:` turns any strtobool failure into the ValueError
      match strtobool s with
      | .ok n => .ok (.vbool (n != 0))
      | .error _ => .error .valueError
    | _ => .ok (.vbool (pyTruthy v))
  | .intParam _ _ _, v =>
    -- bare `except:` turns any int() failure into the ValueError
    match pyInt v with
    | .ok n => .ok (.vint n)
    | .error _ => .error .valueError
  | .stringParam _ _, v =>
    match v with
    | .vstr s => .ok (.vstr s)
    | _ => .error .valueError
  | .colorParam _ _, v =>
    match v with
    | .vstr s =>
      if (pySplit s ' ').length > 1 then .error .valueError else .ok (.vstr s)
    | _ => .error .valueError
  | .fileAttr _ _, v =>
    match v with
    | .vstr s =>
      .ok (.vstr (if s ≠ "" then replaceChar '\\' '/' (env.normpath s) else ""))
    | _ => .error .valueError
  | .choiceParam _ _ values exclusive, v =>
    if exclusive then
      conformValue values v
    else
      let v' : PyValue :=
        match v with
        | .vstr s => .vlist ((pySplit s ',').map PyValue.vstr)
        | x => x
      match pyIter v' with
      | none => .error .valueError
      | some elems =>
        match elems.mapM (conformValue values) with
        | .error e => .error e
        | .ok out => .ok (.vlist out)
  | .listAttr _ _, v =>
    let parsed : Except PyExc PyValue :=
      match v with
      | .vstr s => env.literalEval s
      | x => .ok x
    match parsed with
    | .error e => .error e
    | .ok (.vlist xs) => .ok (.vlist xs)
    | .ok _ => .error .valueError
  | .groupAttr _ gd, v =>
    let parsed : Except PyExc PyValue :=
      match v with
      | .vstr s => env.literalEval s
      | x => .ok x
    match parsed with
    | .error e => .error e
    | .ok (.vdict kvs) =>
      if gd.isEmpty then .ok (.vdict kvs)
      else if kvs.any (fun kv => gd.any (fun a => a.name = kv.1)) then
        .ok (.vdict kvs)
      else .error .valueError
    | .ok (.vlist xs) =>
      if xs.length = gd.length then .ok (.vlist xs) else .error .valueError
    | .ok _ => .error .valueError

/-- `Attribute.matchDescription` (desc.py 59-70): `validateValue` inside
`try/except ValueError`. Only `ValueError` is converted into a boolean
non-match; any other exception propagates. -/
def baseMatch (env : PyEnv) (d : AttrDesc) (v : PyValue) : Except PyExc Bool :=
  match validateValue env d v with
  | .ok _ => .ok true
  | .error .valueError => .ok false
  | .error e => .error e

/-- The dict comprehension `{attr.name: attr for attr in groupDesc}`
(desc.py 180): on duplicate names the last entry wins. -/
def attrLookup (gd : List AttrDesc) (k : String) : Option AttrDesc :=
  (gd.filter (fun a => a.name = k)).getLast?

theorem attrLookup_mem {gd : List AttrDesc} {k : String} {d : AttrDesc}
    (h : attrLookup gd k = some d) : d ∈ gd := by
  unfold attrLookup at h
  rcases List.mem_getLast?_eq_getLast (by rw [h]; exact rfl) with ⟨hne, heq⟩
  rw [heq]
  exact List.mem_of_mem_filter (List.getLast_mem hne)

theorem attrLookup_sizeOf {gd : List AttrDesc} {k : String} {d : AttrDesc}
    (h : attrLookup gd k = some d) : sizeOf d < sizeOf gd :=
  List.sizeOf_lt_of_mem (attrLookup_mem h)

mutual

/-- `matchDescription` (desc.py 59-70, 103-110, 169-191). Scalar kinds
use the base behavior (`baseMatch`); `ListAttribute` additionally matches
the first element of a non-empty value against the element descriptor;
`GroupAttribute` iterates `value.items()` — on the ORIGINAL value, not
the one converted by `validateValue` — counting children whose value
matches, and compares the count with the chained
`matchCount == len(value.items()) == len(groupDesc)` in strict mode,
`matchCount > 0` otherwise. -/
def matchDescription (env : PyEnv) (d : AttrDesc) (v : PyValue) (strict : Bool) :
    Except PyExc Bool :=
  match d with
  | .listAttr nm ed =>
    match baseMatch env (.listAttr nm ed) v with
    | .error e => .error e
    | .ok false => .ok false
    | .ok true =>
      if pyTruthy v then
        match pySubscriptZero v with
        | .error e => .error e
        | .ok v0 => matchDescription env ed v0 strict
      else
        .ok true
  | .groupAttr nm gd =>
    -- the source calls super().matchDescription(value) with the default
    -- strict=True here; baseMatch does not depend on it
    match baseMatch env (.groupAttr nm gd) v with
    | .error e => .error e
    | .ok false => .ok false
    | .ok true =>
      match pyItems v with
      | .error e => .error e
      | .ok items =>
        match matchItems env gd items strict with
        | .error e => .error e
        | .ok mc =>
          if strict then
            .ok (mc == items.length && items.length == gd.length)
          else
            .ok (decide (mc > 0))
  | d => baseMatch env d v
termination_by (sizeOf d, 0)

/-- The `for k, v in value.items()` loop of `GroupAttribute.matchDescription`
(desc.py 182-186): count the items whose key is a child name and whose
value matches that child; an exception from a child match propagates. -/
def matchItems (env : PyEnv) (gd : List AttrDesc)
    (items : List (String × PyValue)) (strict : Bool) : Except PyExc Nat :=
  match items with
  | [] => .ok 0
  | (k, v) :: rest =>
    match hlook : attrLookup gd k with
    | none => matchItems env gd rest strict
    | some d =>
      match matchDescription env d v strict with
      | .error e => .error e
      | .ok b =>
        match matchItems env gd rest strict with
        | .error e => .error e
        | .ok m => .ok (if b then m + 1 else m)
termination_by (sizeOf gd, items.length + 1)
decreasing_by
  all_goals first
    | decreasing_tactic
    | (apply Prod.Lex.left
       exact attrLookup_sizeOf hlook)

end

/-- Python's `isinstance(v, int)`: true for ints and for bools (`bool`
is a subclass of `int` in Python). -/
def pyIsInstInt : PyValue → Bool
  | .vint _ => true
  | .vbool _ => true
  | _ => false

mutual

/-- `checkValueTypes` of each descriptor kind (desc.py 100-101, 151-167,
222-227, 245-248, 265-268, 323-325, 344-347). `ColorParam` defines no
override, so it inherits the abstract `Attribute.checkValueTypes`, which
raises `NotImplementedError` (desc.py 50-57, 350-360). -/
def checkValueTypes : AttrDesc → Except PyExc String
  | .boolParam nm value =>
    match value with
    | .vbool _ => .ok ""
    | _ => .ok nm
  | .intParam nm value rng =>
    -- `not isinstance(value, int) or (range and not all(isinstance(r, int)))`
    let rangeBad : Bool :=
      match rng with
      | none => false
      | some rs => !rs.isEmpty && !(rs.all pyIsInstInt)
    if !pyIsInstInt value || rangeBad then .ok nm else .ok ""
  | .stringParam nm value =>
    match value with
    | .vstr _ => .ok ""
    | _ => .ok nm
  | .colorParam _ _ => .error .notImplementedError
  | .fileAttr nm value =>
    -- the `callable(self.value)` escape hatch is not modelled
    match value with
    | .vstr _ => .ok ""
    | _ => .ok nm
  | .choiceParam _ _ _ _ => .ok ""
  | .listAttr _ ed => checkValueTypes ed
  | .groupAttr nm gd =>
    match checkChildren gd with
    | .error e => .error e
    | .ok invalid =>
      if invalid.isEmpty then .ok ""
      else .ok (nm ++ ":" ++ String.intercalate (", " ++ nm ++ ":") invalid)

/-- The loop of `GroupAttribute.checkValueTypes` (desc.py 158-162):
collect the non-empty results of the children, in order; an exception
from a child propagates. -/
def checkChildren : List AttrDesc → Except PyExc (List String)
  | [] => .ok []
  | a :: rest =>
    match checkValueTypes a with
    | .error e => .error e
    | .ok n =>
      match checkChildren rest with
      | .error e => .error e
      | .ok ns => .ok (if n ≠ "" then n :: ns else ns)

end

theorem matchItems_nil (env : PyEnv) (gd : List AttrDesc) (strict : Bool) :
    matchItems env gd [] strict = .ok 0 := by
  rw [matchItems]

theorem matchItems_cons (env : PyEnv) (gd : List AttrDesc) (k : String)
    (v : PyValue) (rest : List (String × PyValue)) (strict : Bool) :
    matchItems env gd ((k, v) :: rest) strict =
      match attrLookup gd k with
      | none => matchItems env gd rest strict
      | some d =>
        match matchDescription env d v strict with
        | .error e => .error e
        | .ok b =>
          match matchItems env gd rest strict with
          | .error e => .error e
          | .ok m => .ok (if b then m + 1 else m) := by
  rw [matchItems]
  split
  · rename_i heq
    rw [heq]
  · rename_i d heq
    rw [heq]

/-- C4 counterexample: a `GroupAttribute` with one child, given the
positional list value `[1]` — which `validateValue` accepts, since its
length matches the child count — raises `AttributeError` in
`matchDescription` when it calls `.items()` on the list, instead of
returning a boolean. -/
theorem C4_counterexample :
    matchDescription envDefault (.groupAttr "g" [.intParam "a" (.vint 0) none])
      (.vlist [.vint 1]) true = .error .attributeError := by
  simp [matchDescription, baseMatch, validateValue, pyItems]

/-- C4 (amended): `matchDescription` converts a `ValueError` raised by
`validateValue` into the boolean non-match `False`, for every descriptor
kind, every value and both strictness modes; however it is not
exception-free: failures of other exception types propagate (see the
counterexample, where a positional group value raises
`AttributeError`). -/
theorem C4_valueError_to_false (env : PyEnv) (d : AttrDesc)
    (v : PyValue) (strict : Bool)
    (h : validateValue env d v = .error .valueError) :
    matchDescription env d v strict = .ok false := by
  cases d <;> simp [matchDescription, baseMatch, h]

/-- Witness for C4 (amended): `BoolParam.validateValue("maybe")` raises
the `ValueError`, and `matchDescription` turns it into `False`. -/
theorem C4_witness :
    validateValue envDefault (.boolParam "b" (.vbool false)) (.vstr "maybe") =
        .error .valueError ∧
      matchDescription envDefault (.boolParam "b" (.vbool false)) (.vstr "maybe")
        true = .ok false :=
  ⟨rfl, C4_valueError_to_false envDefault _ _ true rfl⟩

/-- C8 counterexample: `BoolParam.validateValue(5)` returns `True`
(Python `bool(5)`) instead of failing, so the claim that every input
other than native booleans and the truthy/falsy string tokens fails
with a `ValidationError` is false. -/
theorem C8_counterexample :
    validateValue envDefault (.boolParam "b" (.vbool false)) (.vint 5) =
      .ok (.vbool true) := rfl

/-- C8 (amended): `BoolParam.validateValue` accepts strings through the
`strtobool` token set — y/yes/t/true/on/1 give `True`,
n/no/f/false/off/0 give `False`, case-insensitively, anything else (such
as "maybe") raises the `ValueError` — so `validateValue("yes") = True`;
but every non-string value is accepted through Python truthiness
`bool(value)` and never fails (e.g. the integer 5 gives `True`). -/
theorem C8_boolParam_validate (env : PyEnv) (nm : String) (dv : PyValue) :
    (validateValue env (.boolParam nm dv) (.vstr "yes") = .ok (.vbool true)) ∧
    (validateValue env (.boolParam nm dv) (.vstr "maybe") = .error .valueError) ∧
    (∀ v : PyValue, (∀ s, v ≠ .vstr s) →
      validateValue env (.boolParam nm dv) v = .ok (.vbool (pyTruthy v))) ∧
    (∀ s : String,
      validateValue env (.boolParam nm dv) (.vstr s) =
        if pyLower s ∈ (["y", "yes", "t", "true", "on", "1"] : List String) then
          .ok (.vbool true)
        else if pyLower s ∈ (["n", "no", "f", "false", "off", "0"] : List String) then
          .ok (.vbool false)
        else .error .valueError) := by
  refine ⟨rfl, rfl, ?_, ?_⟩
  · intro v h
    cases v with
    | vstr s => exact absurd rfl (h s)
    | vnone => rfl
    | vbool b => rfl
    | vint n => rfl
    | vlist xs => rfl
    | vdict kvs => rfl
  · intro s
    simp only [validateValue, strtobool, List.mem_cons, List.not_mem_nil, or_false]
    split_ifs <;> simp_all

/-- Witness for C8 (amended) at concrete inputs, including the non-string
input `5` (accepted as `True`) and the upper-case token "ON". -/
theorem C8_witness :
    (validateValue envDefault (.boolParam "b" .vnone) (.vstr "yes") =
        .ok (.vbool true)) ∧
    (validateValue envDefault (.boolParam "b" .vnone) (.vstr "maybe") =
        .error .valueError) ∧
    (validateValue envDefault (.boolParam "b" .vnone) (.vint 5) =
        .ok (.vbool (pyTruthy (.vint 5)))) ∧
    (validateValue envDefault (.boolParam "b" .vnone) (.vstr "ON") =
      if pyLower "ON" ∈ (["y", "yes", "t", "true", "on", "1"] : List String) then
        .ok (.vbool true)
      else if pyLower "ON" ∈ (["n", "no", "f", "false", "off", "0"] : List String) then
        .ok (.vbool false)
      else .error .valueError) := by
  obtain ⟨h1, h2, h3, h4⟩ := C8_boolParam_validate envDefault "b" .vnone
  exact ⟨h1, h2, h3 (.vint 5) (fun s h => PyValue.noConfusion h), h4 "ON"⟩

/-- C9: for a `GroupAttribute` with two children named `a` and `b` and
dictionary values whose entries individually match the corresponding
child, the full value `{a:…, b:…}` matches in strict mode, while the
partial value `{a:…}` does not match in strict mode but matches in
non-strict mode. -/
theorem C9_group_strict_nonstrict (env : PyEnv) (g na nb : String)
    (da db : AttrDesc) (va vb : PyValue)
    (hna : da.name = na) (hnb : db.name = nb) (hne : na ≠ nb)
    (hma : matchDescription env da va true = .ok true)
    (hmb : matchDescription env db vb true = .ok true)
    (hma' : matchDescription env da va false = .ok true) :
    matchDescription env (.groupAttr g [da, db])
        (.vdict [(na, va), (nb, vb)]) true = .ok true ∧
      matchDescription env (.groupAttr g [da, db])
        (.vdict [(na, va)]) true = .ok false ∧
      matchDescription env (.groupAttr g [da, db])
        (.vdict [(na, va)]) false = .ok true := by
  have hl1 : attrLookup [da, db] na = some da := by
    simp [attrLookup, List.filter_cons, hna, hnb, Ne.symm hne]
  have hl2 : attrLookup [da, db] nb = some db := by
    simp [attrLookup, List.filter_cons, hna, hnb, hne]
  refine ⟨?_, ?_, ?_⟩ <;>
    simp [matchDescription, matchItems_cons, matchItems_nil, hl1, hl2,
      hma, hmb, hma', baseMatch, validateValue, pyItems, hna]

/-- Witness for C9 with two `IntParam` children and int values. -/
theorem C9_witness :
    matchDescription envDefault
        (.groupAttr "g" [.intParam "a" (.vint 0) none, .intParam "b" (.vint 0) none])
        (.vdict [("a", .vint 1), ("b", .vint 2)]) true = .ok true ∧
      matchDescription envDefault
        (.groupAttr "g" [.intParam "a" (.vint 0) none, .intParam "b" (.vint 0) none])
        (.vdict [("a", .vint 1)]) true = .ok false ∧
      matchDescription envDefault
        (.groupAttr "g" [.intParam "a" (.vint 0) none, .intParam "b" (.vint 0) none])
        (.vdict [("a", .vint 1)]) false = .ok true := by
  have hch : ∀ (nm : String) (v : Int) (strict : Bool),
      matchDescription envDefault (.intParam nm (.vint 0) none) (.vint v) strict =
        .ok true := by
    intro nm v strict
    simp [matchDescription, baseMatch, validateValue, pyInt]
  exact C9_group_strict_nonstrict envDefault "g" "a" "b" _ _ _ _ rfl rfl
    (by decide) (hch "a" 1 true) (hch "b" 2 true) (hch "a" 1 false)

def exceptIsOk {α : Type} : Except PyExc α → Bool
  | .ok _ => true
  | .error _ => false

mutual

/-- True when no `ColorParam` occurs anywhere in a descriptor tree.
`ColorParam` is the one concrete descriptor class that does not override
the abstract, `NotImplementedError`-raising `checkValueTypes`. -/
def colorFree : AttrDesc → Bool
  | .colorParam _ _ => false
  | .listAttr _ ed => colorFree ed
  | .groupAttr _ gd => colorFreeList gd
  | _ => true

def colorFreeList : List AttrDesc → Bool
  | [] => true
  | a :: rest => colorFree a && colorFreeList rest

end

theorem colorFreeList_mem {gd : List AttrDesc} (h : colorFreeList gd = true) :
    ∀ a ∈ gd, colorFree a = true := by
  induction gd with
  | nil => intro a ha; cases ha
  | cons x rest ih =>
    rw [colorFreeList, Bool.and_eq_true] at h
    intro a ha
    rcases List.mem_cons.mp ha with rfl | hmem
    · exact h.1
    · exact ih h.2 a hmem

theorem checkChildren_ok (gd : List AttrDesc)
    (IH : ∀ a ∈ gd, exceptIsOk (checkValueTypes a) = true) :
    ∃ rs, checkChildren gd = .ok rs := by
  induction gd with
  | nil => exact ⟨[], by rw [checkChildren]⟩
  | cons a rest ih =>
    have ha := IH a (by simp)
    obtain ⟨rs, hrs⟩ := ih (fun x hx => IH x (by simp [hx]))
    rw [checkChildren]
    rcases hcv : checkValueTypes a with e | r
    · rw [hcv] at ha; simp [exceptIsOk] at ha
    · rw [hrs]
      exact ⟨_, rfl⟩

/-- `checkValueTypes` never raises on a descriptor tree containing no
`ColorParam`: every kind that overrides it returns a string. -/
theorem checkValueTypes_ok (d : AttrDesc) (h : colorFree d = true) :
    exceptIsOk (checkValueTypes d) = true := by
  generalize hn : sizeOf d = n
  induction n using Nat.strong_induction_on generalizing d with
  | _ n IH =>
    cases d with
    | boolParam nm v => cases v <;> simp [checkValueTypes, exceptIsOk]
    | intParam nm v rng =>
      rw [checkValueTypes.eq_def]
      simp only []
      split <;> simp [exceptIsOk]
    | stringParam nm v => cases v <;> simp [checkValueTypes, exceptIsOk]
    | colorParam nm v => rw [colorFree] at h; cases h
    | fileAttr nm v => cases v <;> simp [checkValueTypes, exceptIsOk]
    | choiceParam nm v vs ex => simp [checkValueTypes, exceptIsOk]
    | listAttr nm ed =>
      rw [colorFree] at h
      rw [checkValueTypes]
      exact IH (sizeOf ed)
        (by subst hn; simp only [AttrDesc.listAttr.sizeOf_spec]; omega) ed h rfl
    | groupAttr nm gd =>
      rw [colorFree] at h
      have hch : ∀ a ∈ gd, exceptIsOk (checkValueTypes a) = true := by
        intro a ha
        have hsz : sizeOf a < n := by
          subst hn
          have := List.sizeOf_lt_of_mem ha
          simp only [AttrDesc.groupAttr.sizeOf_spec]
          omega
        exact IH (sizeOf a) hsz a (colorFreeList_mem h a ha) rfl
      obtain ⟨rs, hrs⟩ := checkChildren_ok gd hch
      rw [checkValueTypes, hrs]
      rcases eq_or_ne rs [] with he | he <;> simp [he, exceptIsOk]

/-- C5 counterexample: `ColorParam` does not override the abstract
`Attribute.checkValueTypes`, so calling it raises `NotImplementedError`
instead of returning a name-or-empty string — the claim's "for every
descriptor … never raising" fails on `ColorParam`. -/
theorem C5_counterexample :
    checkValueTypes (.colorParam "color" (.vstr "")) =
      .error .notImplementedError := by
  rw [checkValueTypes]

/-- C5 (amended): for every descriptor containing no `ColorParam`,
`checkValueTypes` returns a string without raising (ColorParam itself
inherits the abstract method and raises `NotImplementedError`); an
`IntParam` whose default is a string returns that attribute's name; a
Group with an invalid child returns the colon-joined `group:child`
(recursively `group:nested:grandchild`), and the empty string when all
children are valid. -/
theorem C5_checkValueTypes :
    (∀ d : AttrDesc, colorFree d = true → exceptIsOk (checkValueTypes d) = true) ∧
    (∀ (nm s : String) (rng : Option (List PyValue)),
      checkValueTypes (.intParam nm (.vstr s) rng) = .ok nm) ∧
    (∀ (g c s : String) (rng : Option (List PyValue)), c ≠ "" →
      checkValueTypes (.groupAttr g [.intParam c (.vstr s) rng]) =
        .ok (g ++ ":" ++ c)) ∧
    (checkValueTypes
        (.groupAttr "g" [.groupAttr "m" [.intParam "c" (.vstr "x") none]]) =
      .ok "g:m:c") ∧
    (∀ (g nm : String) (n : Int),
      checkValueTypes (.groupAttr g [.intParam nm (.vint n) none]) = .ok "") := by
  have hint : ∀ (nm s : String) (rng : Option (List PyValue)),
      checkValueTypes (.intParam nm (.vstr s) rng) = .ok nm := by
    intro nm s rng
    rw [checkValueTypes.eq_def]
    simp [pyIsInstInt]
  refine ⟨checkValueTypes_ok, hint, ?_, ?_, ?_⟩
  · intro g c s rng hc
    rw [checkValueTypes, checkChildren, hint, checkChildren]
    simp [hc, String.intercalate, String.intercalate.go]
  · rfl
  · intro g nm n
    rw [checkValueTypes, checkChildren, checkValueTypes.eq_def]
    simp [pyIsInstInt, checkChildren]

/-- Witness for C5 (amended) at concrete descriptors. -/
theorem C5_witness :
    exceptIsOk (checkValueTypes (.boolParam "b" (.vstr "oops"))) = true ∧
    checkValueTypes (.intParam "i" (.vstr "bad") none) = .ok "i" ∧
    checkValueTypes (.groupAttr "g" [.intParam "c" (.vstr "bad") none]) =
      .ok "g:c" ∧
    checkValueTypes (.groupAttr "g" [.intParam "n" (.vint 3) none]) = .ok "" := by
  obtain ⟨h1, h2, h3, h4, h5⟩ := C5_checkValueTypes
  exact ⟨h1 _ (by simp [colorFree]), h2 "i" "bad" none,
    h3 "g" "c" "bad" none (by decide), h5 "g" "n" 3⟩

/-! ## Sizing strategies over node attributes (desc.py 435-493) -/

/-- `isinstance(param.desc, ListAttribute)`. -/
def isListDesc : AttrDesc → Bool
  | .listAttr _ _ => true
  | _ => false

/-- `isinstance(param.desc, IntParam)` (no descriptor class in the source
subclasses `IntParam`). -/
def isIntDesc : AttrDesc → Bool
  | .intParam _ _ _ => true
  | _ => false

/-- One resolved attribute of a node instance, exposing exactly what the
sizing strategies read: `param.isLink`, the upstream node's size reached
through `param.getLinkParam().node.size` (attribute plumbing that lives
outside this repository's source), `param.desc`, `param.value`, and
`len(param)` for list values. -/
structure AttrInstance where
  isLink : Bool
  linkedNodeSize : Int
  desc : AttrDesc
  value : PyValue
  listLength : Nat

/-- A node instance as the sizing strategies observe it: a name-keyed
attribute collection. -/
structure NodeModel where
  attrs : List (String × AttrInstance)

def NodeModel.attribute (node : NodeModel) (nm : String) : Option AttrInstance :=
  node.attrs.lookup nm

/-- Embedding of `DynamicNodeSize` (desc.py 435-455). -/
structure DynamicNodeSize where
  param : String

/-- `DynamicNodeSize.computeSize` (desc.py 445-455): upstream node's size
for a link, element count for a List attribute, the attribute's own value
for an IntParam, and 1 otherwise. -/
def DynamicNodeSize.computeSize (dns : DynamicNodeSize) (node : NodeModel) :
    Except PyExc PyValue :=
  match node.attribute dns.param with
  | none => .error .keyError
  | some p =>
    if p.isLink then .ok (.vint p.linkedNodeSize)
    else if isListDesc p.desc then .ok (.vint p.listLength)
    else if isIntDesc p.desc then .ok p.value
    else .ok (.vint 1)

/-- Embedding of `MultiDynamicNodeSize` (desc.py 458-482). -/
structure MultiDynamicNodeSize where
  params : List String

/-- The accumulation loop of `MultiDynamicNodeSize.computeSize`
(desc.py 472-482). Note the loop has no `IntParam` branch: a non-link,
non-List attribute always contributes 1. -/
def multiSizeLoop (node : NodeModel) : List String → Int → Except PyExc Int
  | [], acc => .ok acc
  | p :: rest, acc =>
    match node.attribute p with
    | none => .error .keyError
    | some a =>
      let inc : Int :=
        if a.isLink then a.linkedNodeSize
        else if isListDesc a.desc then (a.listLength : Int)
        else 1
      multiSizeLoop node rest (acc + inc)

def MultiDynamicNodeSize.computeSize (m : MultiDynamicNodeSize)
    (node : NodeModel) : Except PyExc Int :=
  multiSizeLoop node m.params 0

/-- A node with a single Int-valued attribute `count` of value 5. -/
def c2Node : NodeModel :=
  ⟨[("count", ⟨false, 0, .intParam "count" (.vint 0) none, .vint 5, 0⟩)]⟩

/-- C2 counterexample: on an Int-valued attribute with value 5,
`DynamicNodeSize` resolves 5 but `MultiDynamicNodeSize` adds only 1 —
`MultiDynamicNodeSize.computeSize` lacks the `IntParam` branch, so it is
not the sum of the per-attribute resolution used by `DynamicNodeSize`. -/
theorem C2_counterexample :
    DynamicNodeSize.computeSize ⟨"count"⟩ c2Node = .ok (.vint 5) ∧
      MultiDynamicNodeSize.computeSize ⟨["count"]⟩ c2Node = .ok 1 ∧
      (1 : Int) ≠ 5 :=
  ⟨rfl, rfl, by decide⟩

theorem multiSizeLoop_shift (node : NodeModel) (ps : List String) (acc : Int) :
    multiSizeLoop node ps acc =
      match multiSizeLoop node ps 0 with
      | .ok s => .ok (acc + s)
      | .error e => .error e := by
  induction ps generalizing acc with
  | nil => simp [multiSizeLoop]
  | cons p rest ih =>
    simp only [multiSizeLoop]
    cases node.attribute p with
    | none => rfl
    | some a =>
      simp only []
      rw [ih, ih (0 + _)]
      cases multiSizeLoop node rest 0 with
      | error e => rfl
      | ok s => simp only []; ring_nf

/-- C2 (amended): `MultiDynamicNodeSize(paramNames).computeSize` is the
sum over the named attributes of: upstream node's size if the attribute
is a link, element count if it is List-valued, and 1 otherwise — with no
`IntParam` case. Consequently it equals the sum of `DynamicNodeSize`'s
per-attribute resolutions whenever no named attribute is a non-link
Int-valued attribute (on those the two strategies differ, see the
counterexample). -/
theorem C2_multi_sum (node : NodeModel) (params : List String)
    (h : ∀ p ∈ params, ∃ a, node.attribute p = some a ∧
      (a.isLink = true ∨ isIntDesc a.desc = false)) :
    ∃ ns : List Int,
      params.mapM (fun p => DynamicNodeSize.computeSize ⟨p⟩ node) =
        .ok (ns.map PyValue.vint) ∧
      MultiDynamicNodeSize.computeSize ⟨params⟩ node = .ok ns.sum := by
  induction params with
  | nil => exact ⟨[], rfl, rfl⟩
  | cons p rest ih =>
    obtain ⟨a, ha, hcase⟩ := h p (by simp)
    obtain ⟨ns, hmap, hmulti⟩ := ih (fun q hq => h q (by simp [hq]))
    have hdynk : DynamicNodeSize.computeSize ⟨p⟩ node =
        .ok (.vint (if a.isLink then a.linkedNodeSize
          else if isListDesc a.desc then (a.listLength : Int) else 1)) := by
      by_cases hlk : a.isLink
      · simp [DynamicNodeSize.computeSize, ha, hlk]
      · by_cases hld : isListDesc a.desc
        · simp [DynamicNodeSize.computeSize, ha, hlk, hld]
        · have hni : isIntDesc a.desc = false := by
            rcases hcase with hl | hni
            · exact absurd hl hlk
            · exact hni
          simp [DynamicNodeSize.computeSize, ha, hlk, hld, hni]
    refine ⟨(if a.isLink then a.linkedNodeSize
      else if isListDesc a.desc then (a.listLength : Int) else 1) :: ns, ?_, ?_⟩
    · rw [List.mapM_cons, hdynk, hmap]
      rfl
    · show multiSizeLoop node (p :: rest) 0 = _
      simp only [multiSizeLoop, ha]
      rw [multiSizeLoop_shift]
      have hms : multiSizeLoop node rest 0 = .ok ns.sum := hmulti
      rw [hms]
      simp only [List.sum_cons, zero_add]

/-- A node with one link attribute (upstream size 7) and one string
attribute. -/
def c2LinkNode : NodeModel :=
  ⟨[("in", ⟨true, 7, .stringParam "in" (.vstr ""), .vstr "", 0⟩),
    ("s", ⟨false, 0, .stringParam "s" (.vstr ""), .vstr "x", 0⟩)]⟩

/-- Witness for C2 (amended) on a link attribute and a string attribute. -/
theorem C2_witness :
    ∃ ns : List Int,
      (["in", "s"].mapM fun p => DynamicNodeSize.computeSize ⟨p⟩ c2LinkNode) =
        .ok (ns.map PyValue.vint) ∧
      MultiDynamicNodeSize.computeSize ⟨["in", "s"]⟩ c2LinkNode = .ok ns.sum := by
  apply C2_multi_sum
  intro p hp
  rcases List.mem_cons.mp hp with rfl | hp
  · exact ⟨_, rfl, Or.inl rfl⟩
  · rcases List.mem_cons.mp hp with rfl | hp
    · exact ⟨_, rfl, Or.inr rfl⟩
    · cases hp

/-! ## Process execution and cancellation (desc.py 584-648) -/

/-- An OS process as `stopProcess` observes it: a pid, and whether the
process still exists at the moment `terminate()` is called on it. -/
structure Proc where
  pid : Nat
  alive : Bool
deriving DecidableEq, Repr

/-- The `chunk.subprocess` field: the attribute may be absent altogether
(`hasattr(chunk, "subprocess")` is false — another instance of the same
logical node holds the real handle), may hold `None` (cleared after a
run), or may hold a live handle together with the recursive enumeration
`subprocess.children(recursive=True)`. -/
inductive SubprocField where
  | absent
  | noneHandle
  | live (children : List Proc) (self : Proc)

/-- The `for process in processes: process.terminate()` loop
(desc.py 616-617): terminating a vanished process raises
`NoSuchProcess`, which aborts the loop. Returns the pids on which
`terminate()` completed and the exception that escaped the loop, if
any. -/
def terminateLoop : List Proc → List Nat × Option PyExc
  | [] => ([], none)
  | p :: rest =>
    if p.alive then
      let (t, e) := terminateLoop rest
      (p.pid :: t, e)
    else
      ([], some .noSuchProcess)

/-- `CommandLineNode.stopProcess` (desc.py 607-619): no-op without a
handle; otherwise terminates `children(recursive=True) + [subprocess]`
inside `try/except psutil.NoSuchProcess: pass`. Returns the list of
pids actually terminated; the `except` clause swallows the only
exception the loop can raise, so the result is always `.ok`. -/
def stopProcess : SubprocField → Except PyExc (List Nat)
  | .absent => .ok []
  | .noneHandle => .ok []
  | .live children self =>
    let (t, e) := terminateLoop (children ++ [self])
    match e with
    | none => .ok t
    | some .noSuchProcess => .ok t
    | some e => .error e

/-- C7 counterexample: with an already-vanished first child and a still
existing second child and root, `stopProcess` terminates nothing at all
— the `try/except NoSuchProcess` wraps the whole loop, so the first
vanished process aborts the remaining terminations. The claim that
"every still-existing process in the enumerated set is nevertheless
terminated" is false: pid 2 is alive but absent from the terminated
set. -/
theorem C7_counterexample :
    stopProcess (.live [⟨1, false⟩, ⟨2, true⟩] ⟨3, true⟩) = .ok [] ∧
      (Proc.mk 2 true).alive = true ∧
      (2 : Nat) ∉ ([] : List Nat) :=
  ⟨rfl, rfl, by decide⟩

theorem terminateLoop_spec (ps : List Proc) :
    (terminateLoop ps).1 = (ps.takeWhile (fun p => p.alive)).map Proc.pid ∧
      ((terminateLoop ps).2 = none ∨
        (terminateLoop ps).2 = some .noSuchProcess) := by
  induction ps with
  | nil => exact ⟨rfl, Or.inl rfl⟩
  | cons p rest ih =>
    by_cases hp : p.alive
    · simp [terminateLoop, hp, List.takeWhile_cons, ih.1, ih.2]
    · simp [terminateLoop, hp, List.takeWhile_cons]

/-- C7 (amended): `stopProcess` is a no-op for a chunk that never held a
live handle (attribute absent or `None`); it never raises (the
"process no longer exists" condition is tolerated); and it terminates
the enumerated processes in order only up to — not past — the first
vanished one: the terminated set is the longest alive prefix of
`children ++ [subprocess]`. In particular all enumerated processes are
terminated when all of them still exist, but a vanished process aborts
the termination of the remaining live ones (see the counterexample). -/
theorem C7_stopProcess :
    (stopProcess .absent = .ok []) ∧
    (stopProcess .noneHandle = .ok []) ∧
    (∀ f : SubprocField, ∃ t, stopProcess f = .ok t) ∧
    (∀ (children : List Proc) (self : Proc),
      stopProcess (.live children self) =
        .ok (((children ++ [self]).takeWhile (fun p => p.alive)).map Proc.pid)) ∧
    (∀ (children : List Proc) (self : Proc),
      (∀ p ∈ children ++ [self], p.alive = true) →
      stopProcess (.live children self) =
        .ok ((children ++ [self]).map Proc.pid)) := by
  have hlive : ∀ (children : List Proc) (self : Proc),
      stopProcess (.live children self) =
        .ok (((children ++ [self]).takeWhile (fun p => p.alive)).map Proc.pid) := by
    intro children self
    obtain ⟨h1, h2⟩ := terminateLoop_spec (children ++ [self])
    rw [stopProcess]
    rcases h2 with h2 | h2
    · rw [show terminateLoop (children ++ [self]) =
        ((terminateLoop (children ++ [self])).1,
          (terminateLoop (children ++ [self])).2) from rfl, h1, h2]
    · rw [show terminateLoop (children ++ [self]) =
        ((terminateLoop (children ++ [self])).1,
          (terminateLoop (children ++ [self])).2) from rfl, h1, h2]
  refine ⟨rfl, rfl, ?_, hlive, ?_⟩
  · intro f
    cases f with
    | absent => exact ⟨[], rfl⟩
    | noneHandle => exact ⟨[], rfl⟩
    | live children self => exact ⟨_, hlive children self⟩
  · intro children self h
    rw [hlive, List.takeWhile_eq_self_iff.mpr h]

/-- Witness for C7 (amended): all-alive process tree, fully terminated. -/
theorem C7_witness :
    stopProcess (.live [⟨1, true⟩] ⟨2, true⟩) =
      .ok (([Proc.mk 1 true] ++ [Proc.mk 2 true]).map Proc.pid) := by
  obtain ⟨h1, h2, h3, h4, h5⟩ := C7_stopProcess
  exact h5 [⟨1, true⟩] ⟨2, true⟩ (by decide)

/-- The per-chunk status record persisted by `saveStatusFile`
(the fields `processChunk` touches). -/
structure ChunkStatus where
  commandLine : Option String
  returnCode : Option Int
deriving DecidableEq, Repr

/-- In-memory chunk state as `processChunk` manipulates it: the mutable
status object, the last persisted snapshot of it, the live subprocess
handle, and the log file's content. -/
structure ChunkState where
  status : ChunkStatus
  savedStatus : Option ChunkStatus
  subprocess : Option Nat
  logContent : String
deriving DecidableEq, Repr

/-- The observable events of one `processChunk` run, in program order. -/
inductive PEvent where
  | openLog
  | saveStatus (st : ChunkStatus)
  | launch (cmd : String)
  | waitExit (code : Int)
deriving DecidableEq, Repr

/-- The message of the error raised on a non-zero exit (desc.py 644):
`'Error on node "…":\nLog:\n…'` with the chunk name and the full log
text. This realizes the spec's ProcessExecutionError (the source raises
it as a `RuntimeError`). -/
def processExecutionErrorMsg (name log : String) : String :=
  "Error on node \"" ++ name ++ "\":\nLog:\n" ++ log

/-- `CommandLineNode.processChunk` (desc.py 621-648), as a function of
the resolved command line (the result of `buildCommandLine`), of the
external process behavior (whether `Popen` succeeds, the pid, the exit
code, and the log text the process writes), and of the chunk state.
Returns the final chunk state, the event trace, and the run's outcome.
In source order: the log file is opened in truncate mode; the command
line is stored into `chunk.status` and persisted with `saveStatusFile`
BEFORE the launch; the process is launched with its streams redirected
to the log; the run blocks until exit; the exit code is recorded into
the status; a non-zero exit re-reads the log and raises with the name
and full log text; and the `finally` clause unconditionally clears
`chunk.subprocess` — also when `Popen` itself raised. -/
def processChunk (name cmd : String) (launchOk : Bool) (pid : Nat)
    (exitCode : Int) (logOut : String) (c0 : ChunkState) :
    ChunkState × List PEvent × Except String Unit :=
  let c1 : ChunkState := { c0 with logContent := "" }
  let c2 : ChunkState :=
    { c1 with status := { c1.status with commandLine := some cmd } }
  let c3 : ChunkState := { c2 with savedStatus := some c2.status }
  let tr0 : List PEvent := [.openLog, .saveStatus c2.status]
  if launchOk then
    let c4 : ChunkState := { c3 with subprocess := some pid, logContent := logOut }
    let c5 : ChunkState :=
      { c4 with status := { c4.status with returnCode := some exitCode } }
    let tr : List PEvent := tr0 ++ [.launch cmd, .waitExit exitCode]
    if exitCode ≠ 0 then
      ({ c5 with subprocess := none }, tr,
        .error (processExecutionErrorMsg name c5.logContent))
    else
      ({ c5 with subprocess := none }, tr, .ok ())
  else
    ({ c3 with subprocess := none }, tr0, .error "launch failure")

/-- C6: on every path — success, non-zero exit, or launch failure — the
chunk's live handle ends cleared (`subprocess = none`); the resolved
command line is recorded and persisted (a `saveStatus` event carrying
it) strictly before the `launch` event, and no launch happens at all
when `Popen` fails; and for a non-zero exit code (such as 2) the exit
code is recorded into the status and the raised error carries the node
name and the complete log text. -/
theorem C6_processChunk (name cmd : String) (launchOk : Bool) (pid : Nat)
    (exitCode : Int) (logOut : String) (c0 : ChunkState) :
    ((processChunk name cmd launchOk pid exitCode logOut c0).1.subprocess = none) ∧
    (launchOk = true →
      (processChunk name cmd launchOk pid exitCode logOut c0).2.1 =
        [.openLog, .saveStatus ⟨some cmd, c0.status.returnCode⟩,
          .launch cmd, .waitExit exitCode]) ∧
    (launchOk = false →
      (processChunk name cmd launchOk pid exitCode logOut c0).2.1 =
        [.openLog, .saveStatus ⟨some cmd, c0.status.returnCode⟩]) ∧
    (launchOk = true → exitCode ≠ 0 →
      (processChunk name cmd launchOk pid exitCode logOut c0).1.status.returnCode =
          some exitCode ∧
        (processChunk name cmd launchOk pid exitCode logOut c0).2.2 =
          .error (processExecutionErrorMsg name logOut) ∧
        (processChunk name cmd launchOk pid exitCode logOut c0).1.savedStatus =
          some ⟨some cmd, c0.status.returnCode⟩) := by
  refine ⟨?_, ?_, ?_, ?_⟩
  · by_cases hl : launchOk <;> by_cases he : exitCode ≠ 0 <;>
      simp [processChunk, hl, he]
  · intro hl
    by_cases he : exitCode ≠ 0 <;> simp [processChunk, hl, he]
  · intro hl
    simp [processChunk, hl]
  · intro hl he
    refine ⟨?_, ?_, ?_⟩ <;> simp [processChunk, hl, he]

/-- A freshly created chunk: empty status, nothing persisted, no
handle, empty log. -/
def c6Init : ChunkState := ⟨⟨none, none⟩, none, none, ""⟩

/-- Witness for C6: a process exiting with code 2. -/
theorem C6_witness :
    ((processChunk "n" "cmd" true 7 2 "LOGTEXT" c6Init).1.subprocess = none) ∧
    ((processChunk "n" "cmd" true 7 2 "LOGTEXT" c6Init).2.1 =
      [.openLog, .saveStatus ⟨some "cmd", none⟩, .launch "cmd", .waitExit 2]) ∧
    ((processChunk "n" "cmd" true 7 2 "LOGTEXT" c6Init).1.status.returnCode =
      some 2) ∧
    ((processChunk "n" "cmd" true 7 2 "LOGTEXT" c6Init).2.2 =
      .error (processExecutionErrorMsg "n" "LOGTEXT")) ∧
    ((processChunk "n" "cmd" true 7 2 "LOGTEXT" c6Init).1.savedStatus =
      some ⟨some "cmd", none⟩) := by
  obtain ⟨h1, h2, h3, h4⟩ := C6_processChunk "n" "cmd" true 7 2 "LOGTEXT" c6Init
  obtain ⟨h5, h6, h7⟩ := h4 rfl (by decide)
  exact ⟨h1, h2 rfl, h5, h6, h7⟩
